import Mathlib

/-!
A shallow embedding of the quality-level reconciliation and selection core of
`src/plugin.js` (videojs-hls-quality-selector).  JavaScript numbers are
modelled as exact rationals (`ℚ`); a quality level's attributes are a partial
map from field names to numbers (`none` plays the role of `undefined`); the
values flowing into menu-item descriptors are modelled by `JsVal` (number,
string, or `undefined`).  Stateful pieces (the plugin's button state, the
module-level `defaults` object) are modelled by explicit state passing.
-/

namespace HlsQualitySelector

-- `Rat.mul` and `Rat.inv` are shipped `@[irreducible]`; concrete evaluation
-- of the bitrate-scaling division (by `decide`) needs them unfolded.
attribute [local semireducible] Rat.mul Rat.inv

/-- A JavaScript value as it appears in this plugin's data flow: a number,
a string, or `undefined`.  (`NaN` never arises from the exact-rational model
of the arithmetic used here; where JS would produce the string `"NaN"` via
`Math.floor(undefined)` the embedding produces it explicitly.) -/
inductive JsVal where
  | num (q : ℚ)
  | str (s : String)
  | undefined
  deriving DecidableEq, Repr

/-- A quality level from the host `qualityLevels()` collection: a partial map
from attribute names (e.g. `"height"`, `"bitrate"`) to numeric values.
`none` models an absent attribute (`undefined`).  Per the host interface the
discriminator attributes are numeric. -/
structure Level where
  fields : String → Option ℚ

/-- Embed a derived identifier (a number or `undefined`) into `JsVal`. -/
def idToVal : Option ℚ → JsVal
  | some q => .num q
  | none => .undefined

/-- `let value = level[this._options.identifyBy] || level.height;`
(plugin.js line 99).  JS `||` returns the right operand when the left one is
falsy; for numeric-or-absent attributes the falsy values are `undefined` and
`0`, so a legitimate discriminator value of `0` falls back to `height`. -/
def rawIdentifier (identifyBy : String) (l : Level) : Option ℚ :=
  match l.fields identifyBy with
  | some q => if q = 0 then l.fields "height" else some q
  | none => l.fields "height"

/-- `const mags = ['', 'k', 'M', 'G', 'T'];` (plugin.js line 104). -/
def mags : List String := ["", "k", "M", "G", "T"]

/-- The `while` loop of the bitrate formatter (plugin.js lines 107-110):
`while (Math.floor(value) > 1e3 && mag < mags.length) { value = value / 1e3; mag++; }`
The guard `mag < mags.length` bounds the iteration count by `mags.length`,
so running the loop body with fuel `mags.length` is exact. -/
def bitrateScaleGo : ℕ → ℚ × ℕ → ℚ × ℕ
  | 0, s => s
  | fuel + 1, (value, mag) =>
    if Rat.floor value > 1000 ∧ mag < mags.length then
      bitrateScaleGo fuel (value / 1000, mag + 1)
    else (value, mag)

/-- The bitrate scaling loop started from `mag = 0`. -/
def bitrateScale (value : ℚ) : ℚ × ℕ := bitrateScaleGo mags.length (value, 0)

/-- `return Math.floor(value) + mags[mag] + 'bps';` (plugin.js line 111).
When the loop exits with `mag = mags.length` (five scalings), `mags[mag]` is
`undefined`, and in JS `number + undefined` is `NaN`, so the result is the
string `"NaNbps"`. -/
def formatBitrate (q : ℚ) : String :=
  let s := bitrateScale q
  match mags.get? s.2 with
  | some suffix => toString (Rat.floor s.1) ++ suffix ++ "bps"
  | none => "NaNbps"

/-- The bitrate formatter applied to a derived identifier that may be
`undefined`: `Math.floor(undefined)` is `NaN`, the loop guard is then false,
and `NaN + '' + 'bps'` is `"NaNbps"`. -/
def formatBitrateVal : Option ℚ → String
  | some q => formatBitrate q
  | none => "NaNbps"

/-- JS rendering of a numeric value inside string concatenation.  The heights
this plugin renders are integers; the non-integer case never arises in any
claim and is rendered via `ℚ`'s `toString`. -/
def jsNumString (q : ℚ) : String :=
  if q.den = 1 then toString q.num else toString q

/-- `return value + 'p';` (plugin.js line 114) applied to a derived
identifier; `undefined + 'p'` is `"undefinedp"` in JS. -/
def heightLabel : Option ℚ → String
  | some q => jsNumString q ++ "p"
  | none => "undefinedp"

/-- `getIdentifierFromLevel(level, format)` (plugin.js lines 98-122): derive
the identifier from the configured discriminator field (falling back to
`height`), and when `format` is set, dispatch on `identifyBy` —
`'bitrate'` scales with unit suffixes, `'height'` appends `'p'`, any other
discriminator returns the raw value. -/
def getIdentifierFromLevel (identifyBy : String) (l : Level) (format : Bool) : JsVal :=
  let value := rawIdentifier identifyBy l
  if format then
    if identifyBy = "bitrate" then .str (formatBitrateVal value)
    else if identifyBy = "height" then .str (heightLabel value)
    else idToVal value
  else idToVal value

/-- A menu-item descriptor `{label, value, selected}` as passed to
`getQualityMenuItem` (plugin.js lines 140-143 and 160-164); real entries
leave `selected` unset (falsy, modelled `false`). -/
structure MenuItem where
  label : JsVal
  value : JsVal
  selected : Bool
  deriving DecidableEq, Repr

/-- A `ConcreteMenuItem` wraps its descriptor in an `item` field — the sort
comparator reads `current.item.value`. -/
structure ConcreteMenuItem where
  item : MenuItem
  deriving DecidableEq, Repr

/-- The accumulation loop of `onAddQualityLevel` (plugin.js lines 134-145):
walk the levels in collection order and push a menu item unless some already
accumulated item has strictly-equal `value` (the dedup filter
`_existingItem.item && _existingItem.item.value === this.getIdentifierFromLevel(levels[i])`;
every accumulated element has a truthy `item`). -/
def buildStep (identifyBy : String) (levelItems : List ConcreteMenuItem) (l : Level) :
    List ConcreteMenuItem :=
  if levelItems.any (fun e => e.item.value == getIdentifierFromLevel identifyBy l false) then
    levelItems
  else
    levelItems ++ [⟨{ label := getIdentifierFromLevel identifyBy l true,
                      value := getIdentifierFromLevel identifyBy l false,
                      selected := false }⟩]

/-- The whole accumulation loop: fold `buildStep` over the collection
starting from the empty `levelItems` array. -/
def buildLevelItems (identifyBy : String) (levels : List Level) : List ConcreteMenuItem :=
  levels.foldl (buildStep identifyBy) []

/-- One step of first-occurrence accumulation on plain values: keep the
value only if it has not been seen yet.  `buildStep` performs exactly this
on the `value` components. -/
def firstOccStep (seen : List JsVal) (v : JsVal) : List JsVal :=
  if v ∈ seen then seen else seen ++ [v]

/-- The subsequence of first occurrences of a value list, in order: the
dedup key sequence that the accumulation loop realizes. -/
def firstOccurrences (l : List JsVal) : List JsVal :=
  l.foldl firstOccStep []

/-- JS `<` restricted to the value types that reach the comparator: numbers
compare numerically, strings lexicographically; any comparison involving
`undefined` is false (`NaN` comparison).  Mixed number/string comparisons
never arise: real menu values are numbers or `undefined`, and the `"auto"`
item is appended after sorting. -/
def jsLt : JsVal → JsVal → Bool
  | .num a, .num b => a < b
  | .str a, .str b => a < b
  | _, _ => false

/-- The value comparison of the sort comparator (plugin.js lines 151-157)
for two well-shaped items: `-1` / `1` / `0` by `current.item.value` versus
`next.item.value`. -/
def itemComparator (current next : ConcreteMenuItem) : Int :=
  if jsLt current.item.value next.item.value then -1
  else if jsLt next.item.value current.item.value then 1
  else 0

/-- Stable insertion used to model `Array.prototype.sort`: an element moves
past another only when the comparator orders it strictly earlier. -/
def sortInsert (a : ConcreteMenuItem) : List ConcreteMenuItem → List ConcreteMenuItem
  | [] => [a]
  | b :: bs => if itemComparator a b ≤ 0 then a :: b :: bs else b :: sortInsert a bs

/-- Model of `levelItems.sort(comparator)` (plugin.js lines 147-158): a
stable sort; for a consistent comparator (the case exercised here — all
values numeric and, after dedup, distinct) its output equals that of any
stable conforming `Array.prototype.sort`. -/
def jsSort (l : List ConcreteMenuItem) : List ConcreteMenuItem :=
  l.foldr sortInsert []

/-- The synthetic trailing entry (plugin.js lines 160-164):
`{label: player.localize('Auto'), value: 'auto', selected: true}`; the
localized label is a configuration-supplied string. -/
def autoItem (autoLabel : String) : ConcreteMenuItem :=
  ⟨{ label := .str autoLabel, value := .str "auto", selected := true }⟩

/-- The menu-item list produced by one reconciliation pass
(`onAddQualityLevel`, plugin.js lines 127-173): accumulate deduplicated
items over the whole collection, sort them, then push the `"auto"` entry. -/
def onAddQualityLevel (identifyBy autoLabel : String) (levels : List Level) :
    List ConcreteMenuItem :=
  jsSort (buildLevelItems identifyBy levels) ++ [autoItem autoLabel]

/-- `setQuality(identifier)` (plugin.js lines 180-189): for each level of the
host collection set
`enabled = (getIdentifierFromLevel(quality) === identifier || identifier === 'auto')`.
The result models the per-level `enabled` flags after the call; the function
is total (no error path) and returns no other value. -/
def setQuality (identifyBy : String) (levels : List Level) (identifier : JsVal) : List Bool :=
  levels.map (fun quality =>
    getIdentifierFromLevel identifyBy quality false == identifier
      || identifier == JsVal.str "auto")

/-! ### Definitions written from the spec's words, for refinement comparison -/

/-- The claim's reference scaling loop, from the spec's words: "repeatedly
divide the value by 1000 while the value exceeds 1000 and fewer than 4
scalings have been applied".  The guard `k < 4` bounds the iterations by 4,
so fuel 4 is exact. -/
def specScaleGo : ℕ → ℚ × ℕ → ℚ × ℕ
  | 0, s => s
  | fuel + 1, (value, k) =>
    if value > 1000 ∧ k < 4 then specScaleGo fuel (value / 1000, k + 1)
    else (value, k)

/-- The claim's reference formatter, from the spec's words: `floor(scaled)`
concatenated with the suffix from `["", "k", "M", "G", "T"]` indexed by the
number of scalings, concatenated with `"bps"` (the index never exceeds 4). -/
def specFormatBitrate (q : ℚ) : String :=
  let s := specScaleGo 4 (q, 0)
  toString (Rat.floor s.1) ++ mags.getD s.2 "" ++ "bps"

/-- The amended scaling rule, stated independently of `bitrateScaleGo` (by
well-founded recursion on the remaining magnitudes rather than by fuel):
divide by 1000 while `floor(value) > 1000` and fewer than `mags.length = 5`
scalings have been applied. -/
def amendedScale (value : ℚ) (mag : ℕ) : ℚ × ℕ :=
  if h : Rat.floor value > 1000 ∧ mag < mags.length then
    amendedScale (value / 1000) (mag + 1)
  else (value, mag)
termination_by mags.length - mag
decreasing_by omega

/-- The amended formatting rule: `floor(scaledValue)` concatenated with the
suffix indexed by the number of scalings and with `"bps"`; when a fifth
scaling occurs the suffix lookup is out of range and JS string-building
yields `"NaNbps"`. -/
def amendedFormatBitrate (q : ℚ) : String :=
  let s := amendedScale q 0
  match mags.get? s.2 with
  | some suffix => toString (Rat.floor s.1) ++ suffix ++ "bps"
  | none => "NaNbps"

/-! ### The defensive sort comparator on arbitrary descriptors (C8) -/

/-- An arbitrary value handed to the sort comparator: either a JS object —
whose `item` field may be absent — or a non-object primitive
(`typeof ≠ 'object'`). -/
inductive SortArg where
  | obj (item : Option MenuItem)
  | nonObj
  deriving DecidableEq, Repr

/-- The full sort comparator (plugin.js lines 147-158) on arbitrary
descriptors.  The `typeof` guard returns `-1` when either argument is a
non-object; past the guard, `current.item.value` and then
`next.item.value` are read, and reading `.value` of an absent `item`
(i.e. of `undefined`) throws a `TypeError`, modelled as `Except.error`. -/
def levelItemComparator : SortArg → SortArg → Except String Int
  | .nonObj, _ => .ok (-1)
  | _, .nonObj => .ok (-1)
  | .obj none, _ => .error "TypeError: undefined has no property value"
  | .obj (some _), .obj none => .error "TypeError: undefined has no property value"
  | .obj (some a), .obj (some b) => .ok (itemComparator ⟨a⟩ ⟨b⟩)

/-! ### Plugin state: button installation and the module-level defaults -/

/-- The mutable context read and written by `onAddQualityLevel`: the
configuration (`identifyBy`, the localized `Auto` label), the host's
quality-level collection, and the quality button when one was created
(holding the item list its `createItems` returns). -/
structure PluginState where
  identifyBy : String
  autoLabel : String
  levels : List Level
  qualityButton : Option (List ConcreteMenuItem)

/-- One reconciliation pass as a state transition (plugin.js lines 127-173):
rebuild the menu-item list from the full collection; when a quality button
exists, install the list as its `createItems` result; the levels and the
configuration are only read, never written. -/
def onAddStep (s : PluginState) : PluginState :=
  match s.qualityButton with
  | none => s
  | some _ =>
    { s with qualityButton := some (onAddQualityLevel s.identifyBy s.autoLabel s.levels) }

/-- The module-level `defaults` object (plugin.js lines 7-10). -/
structure Defaults where
  positionIndex : Int
  identifyBy : String
  deriving DecidableEq, Repr

/-- `const defaults = { positionIndex: -2, identifyBy: 'height' };` -/
def initialDefaults : Defaults := ⟨-2, "height"⟩

/-- An options object passed to the plugin constructor: each property it
carries overrides the corresponding default. -/
structure PluginOptions where
  positionIndex : Option Int
  identifyBy : Option String
  deriving DecidableEq, Repr

/-- `Object.assign(defaults, options)` restricted to the two option fields:
copies every property present on `options` onto the `defaults` object in
place. -/
def objectAssign (d : Defaults) (o : PluginOptions) : Defaults :=
  { positionIndex := o.positionIndex.getD d.positionIndex,
    identifyBy := o.identifyBy.getD d.identifyBy }

/-- `this._options = Object.assign(defaults, options);` (plugin.js line 29):
the constructor mutates the module-level `defaults` object and aliases
`_options` to it.  Result: (module `defaults` after the call,
`this._options`) — the same object, hence the same value.  (The subsequent
`this._options.parent = player.controlBar` writes a third, non-optional
property onto the same shared object; it is outside the two modelled
fields.) -/
def constructorOptions (moduleDefaults : Defaults) (o : PluginOptions) :
    Defaults × Defaults :=
  let d := objectAssign moduleDefaults o
  (d, d)

/-! ### Concrete inputs used by the claims -/

/-- A level carrying only a `height` attribute. -/
def heightLevel (h : ℚ) : Level := ⟨fun f => if f = "height" then some h else none⟩

/-- A level carrying only a `bitrate` attribute. -/
def bitrateLevel (b : ℚ) : Level := ⟨fun f => if f = "bitrate" then some b else none⟩

/-- The sort-order example collection: discriminator values 1080, 240, 720. -/
def demoSortLevels : List Level := [heightLevel 1080, heightLevel 240, heightLevel 720]

/-- The dedup example collection: discriminator values 720, 720, 1080. -/
def demoDedupLevels : List Level := [heightLevel 720, heightLevel 720, heightLevel 1080]

/-- The selection example collection: discriminator values 480, 720, 1080. -/
def demoSelectionLevels : List Level := [heightLevel 480, heightLevel 720, heightLevel 1080]

/-- A level whose `bitrate` attribute is a legitimate `0`, with a `height`
attribute to fall back to. -/
def zeroBitrateLevel : Level :=
  ⟨fun f => if f = "bitrate" then some 0 else if f = "height" then some 720 else none⟩

/-! ## Helper lemmas -/

lemma getIdentifierFromLevel_false (identifyBy : String) (l : Level) :
    getIdentifierFromLevel identifyBy l false = idToVal (rawIdentifier identifyBy l) := rfl

lemma bitrateScaleGo_eq_amendedScale :
    ∀ (fuel : ℕ) (v : ℚ) (mag : ℕ), mags.length - mag ≤ fuel →
      bitrateScaleGo fuel (v, mag) = amendedScale v mag := by
  intro fuel
  induction fuel with
  | zero =>
    intro v mag h
    have hmag : ¬ mag < mags.length := by omega
    rw [amendedScale]
    simp [bitrateScaleGo, hmag]
  | succ n ih =>
    intro v mag h
    rw [amendedScale]
    simp only [bitrateScaleGo]
    by_cases hc : Rat.floor v > 1000 ∧ mag < mags.length
    · rw [if_pos hc, dif_pos hc]
      exact ih (v / 1000) (mag + 1) (by omega)
    · rw [if_neg hc, dif_neg hc]

lemma any_value_eq_mem (acc : List ConcreteMenuItem) (v : JsVal) :
    (acc.any fun e => e.item.value == v) = true ↔
      v ∈ acc.map fun it => it.item.value := by
  rw [List.any_eq_true]
  constructor
  · rintro ⟨e, he, hbe⟩
    exact List.mem_map.mpr ⟨e, he, beq_iff_eq.mp hbe⟩
  · intro hm
    rcases List.mem_map.mp hm with ⟨e, he, hv⟩
    exact ⟨e, he, beq_iff_eq.mpr hv⟩

lemma buildStep_values (identifyBy : String) (acc : List ConcreteMenuItem) (l : Level) :
    (buildStep identifyBy acc l).map (fun it => it.item.value)
      = firstOccStep (acc.map fun it => it.item.value)
          (getIdentifierFromLevel identifyBy l false) := by
  by_cases h : (acc.any fun e => e.item.value == getIdentifierFromLevel identifyBy l false)
      = true
  · rw [buildStep, if_pos h, firstOccStep, if_pos ((any_value_eq_mem _ _).mp h)]
  · rw [buildStep, if_neg h, firstOccStep,
      if_neg (fun hm => h ((any_value_eq_mem _ _).mpr hm))]
    simp

lemma foldl_buildStep_values (identifyBy : String) :
    ∀ (levels : List Level) (acc : List ConcreteMenuItem),
      (levels.foldl (buildStep identifyBy) acc).map (fun it => it.item.value)
        = (levels.map fun l => getIdentifierFromLevel identifyBy l false).foldl
            firstOccStep (acc.map fun it => it.item.value)
  | [], _ => rfl
  | l :: ls, acc => by
    simp only [List.foldl_cons, List.map_cons]
    rw [foldl_buildStep_values identifyBy ls _, buildStep_values]

/-- The values accumulated by the dedup loop are exactly the first
occurrences of the derived identifiers, in collection order. -/
lemma buildLevelItems_values (identifyBy : String) (levels : List Level) :
    (buildLevelItems identifyBy levels).map (fun it => it.item.value)
      = firstOccurrences (levels.map fun l => getIdentifierFromLevel identifyBy l false) :=
  foldl_buildStep_values identifyBy levels []

lemma mem_foldl_firstOccStep :
    ∀ (vs seen : List JsVal) (x : JsVal), x ∈ vs.foldl firstOccStep seen →
      x ∈ seen ∨ x ∈ vs
  | [], _, _, h => .inl h
  | v :: vs, seen, x, h => by
    simp only [List.foldl_cons] at h
    rcases mem_foldl_firstOccStep vs (firstOccStep seen v) x h with h' | h'
    · rw [firstOccStep] at h'
      split at h'
      · exact .inl h'
      · rcases List.mem_append.mp h' with h'' | h''
        · exact .inl h''
        · simp only [List.mem_singleton] at h''
          subst h''
          exact .inr (List.mem_cons_self _ _)
    · exact .inr (List.mem_cons_of_mem _ h')

lemma nodup_foldl_firstOccStep :
    ∀ (vs seen : List JsVal), seen.Nodup → (vs.foldl firstOccStep seen).Nodup
  | [], _, h => h
  | v :: vs, seen, h => by
    simp only [List.foldl_cons]
    apply nodup_foldl_firstOccStep
    rw [firstOccStep]
    split
    · exact h
    · simp_all [List.nodup_append]

/-- The accumulated values are distinct. -/
lemma nodup_firstOccurrences (l : List JsVal) : (firstOccurrences l).Nodup :=
  nodup_foldl_firstOccStep l [] List.nodup_nil

lemma sortInsert_perm (a : ConcreteMenuItem) :
    ∀ l : List ConcreteMenuItem, (sortInsert a l).Perm (a :: l)
  | [] => List.Perm.refl _
  | b :: bs => by
    rw [sortInsert]
    split
    · exact List.Perm.refl _
    · exact ((sortInsert_perm a bs).cons b).trans (List.Perm.swap a b bs)

lemma jsSort_perm : ∀ l : List ConcreteMenuItem, (jsSort l).Perm l
  | [] => List.Perm.refl _
  | x :: xs =>
    (sortInsert_perm x (jsSort xs)).trans ((jsSort_perm xs).cons x)

/-- An item whose menu value is numeric. -/
def numValued (x : ConcreteMenuItem) : Prop := ∃ q : ℚ, x.item.value = JsVal.num q

lemma itemComparator_le_iff {x y : ConcreteMenuItem} {p q : ℚ}
    (hx : x.item.value = JsVal.num p) (hy : y.item.value = JsVal.num q) :
    itemComparator x y ≤ 0 ↔ p ≤ q := by
  unfold itemComparator
  rw [hx, hy]
  simp only [jsLt, decide_eq_true_eq]
  split_ifs with h1 h2
  · exact iff_of_true (by omega) (le_of_lt h1)
  · exact iff_of_false (by omega) (not_le.mpr h2)
  · exact iff_of_true (le_refl 0) (le_of_not_lt h2)

lemma pairwise_le_sortInsert :
    ∀ (l : List ConcreteMenuItem) (a : ConcreteMenuItem),
      numValued a → (∀ x ∈ l, numValued x) →
      l.Pairwise (fun x y => itemComparator x y ≤ 0) →
      (sortInsert a l).Pairwise (fun x y => itemComparator x y ≤ 0)
  | [], a, _, _, _ => List.pairwise_singleton _ a
  | b :: bs, a, ha, hl, hp => by
    rw [sortInsert]
    have hpb := List.pairwise_cons.mp hp
    split
    case isTrue hab =>
      refine List.Pairwise.cons ?_ hp
      intro y hy
      rcases List.mem_cons.mp hy with rfl | hy'
      · exact hab
      · rcases ha with ⟨p, hp'⟩
        rcases hl b (List.mem_cons_self _ _) with ⟨qb, hqb⟩
        rcases hl y (List.mem_cons_of_mem _ hy') with ⟨qy, hqy⟩
        have h1 : p ≤ qb := (itemComparator_le_iff hp' hqb).mp hab
        have h2 : qb ≤ qy := (itemComparator_le_iff hqb hqy).mp (hpb.1 y hy')
        exact (itemComparator_le_iff hp' hqy).mpr (h1.trans h2)
    case isFalse hab =>
      refine List.Pairwise.cons ?_
        (pairwise_le_sortInsert bs a ha (fun x hx => hl x (List.mem_cons_of_mem _ hx)) hpb.2)
      intro y hy
      rcases List.mem_cons.mp ((sortInsert_perm a bs).mem_iff.mp hy) with rfl | hy'
      · rcases ha with ⟨p, hp'⟩
        rcases hl b (List.mem_cons_self _ _) with ⟨qb, hqb⟩
        have hnle : ¬ p ≤ qb := fun hle => hab ((itemComparator_le_iff hp' hqb).mpr hle)
        exact (itemComparator_le_iff hqb hp').mpr (le_of_not_le hnle)
      · exact hpb.1 y hy'

lemma pairwise_le_jsSort :
    ∀ l : List ConcreteMenuItem, (∀ x ∈ l, numValued x) →
      (jsSort l).Pairwise fun x y => itemComparator x y ≤ 0
  | [], _ => List.Pairwise.nil
  | x :: xs, hl => by
    show (sortInsert x (jsSort xs)).Pairwise _
    refine pairwise_le_sortInsert _ x (hl x (List.mem_cons_self _ _)) ?_
      (pairwise_le_jsSort xs fun y hy => hl y (List.mem_cons_of_mem _ hy))
    intro y hy
    exact hl y (List.mem_cons_of_mem _ ((jsSort_perm xs).mem_iff.mp hy))

lemma pairwise_lt_of_le_nodup (l : List ConcreteMenuItem)
    (hnum : ∀ x ∈ l, numValued x)
    (hle : l.Pairwise fun x y => itemComparator x y ≤ 0)
    (hnd : (l.map fun it => it.item.value).Nodup) :
    l.Pairwise fun x y => jsLt x.item.value y.item.value = true := by
  have hne : l.Pairwise fun x y => x.item.value ≠ y.item.value := List.pairwise_map.mp hnd
  refine (hle.and hne).imp_of_mem ?_
  intro x y hx hy hxy
  rcases hnum x hx with ⟨p, hp⟩
  rcases hnum y hy with ⟨q, hq⟩
  have h1 : p ≤ q := (itemComparator_le_iff hp hq).mp hxy.1
  have h2 : p ≠ q := fun h => hxy.2 (by rw [hp, hq, h])
  rw [hp, hq]
  simp only [jsLt, decide_eq_true_eq]
  exact lt_of_le_of_ne h1 h2

/-- Every item accumulated under the numeric-identifier hypothesis carries a
numeric menu value. -/
lemma numValued_of_mem_build (identifyBy : String) (levels : List Level)
    (hnum : ∀ l ∈ levels, (rawIdentifier identifyBy l).isSome = true) :
    ∀ x ∈ buildLevelItems identifyBy levels, numValued x := by
  intro x hx
  have hv : x.item.value ∈ (buildLevelItems identifyBy levels).map fun it => it.item.value :=
    List.mem_map_of_mem _ hx
  rw [buildLevelItems_values] at hv
  rcases mem_foldl_firstOccStep _ _ _ hv with h | h
  · simp at h
  · rcases List.mem_map.mp h with ⟨l, hl, hval⟩
    rcases Option.isSome_iff_exists.mp (hnum l hl) with ⟨q, hq⟩
    refine ⟨q, ?_⟩
    rw [← hval, getIdentifierFromLevel_false, hq]
    rfl

/-! ## Claim theorems -/

/-- C3 (counterexample): the code's bitrate formatter does not agree with
the claim's reference definition; at the numeric identifier value 1000500
the code produces `"1000kbps"` (the loop guard tests
`Math.floor(value) > 1000`, and `floor(1000.5) = 1000` stops it after one
scaling) while the reference (guard `value > 1000`, which `1000.5`
satisfies) scales twice and produces `"1Mbps"`. -/
theorem bitrate_format_spec_counterexample :
    formatBitrate 1000500 = "1000kbps" ∧ specFormatBitrate 1000500 = "1Mbps"
      ∧ formatBitrate 1000500 ≠ specFormatBitrate 1000500 := by decide

/-- C3 (amended): for every numeric identifier value, the code's bitrate
formatter equals the amended reference: repeatedly divide by 1000 while
`floor(value)` exceeds 1000 and fewer than `mags.length = 5` scalings have
been applied; the result is `floor(scaledValue)` concatenated with the
suffix from `["", "k", "M", "G", "T"]` indexed by the number of scalings
and with `"bps"`, except that a fifth scaling leaves the suffix lookup out
of range and JS string-building then yields `"NaNbps"`. -/
theorem bitrate_format_amended (q : ℚ) : formatBitrate q = amendedFormatBitrate q := by
  unfold formatBitrate amendedFormatBitrate bitrateScale
  rw [bitrateScaleGo_eq_amendedScale mags.length q 0 (by omega)]

/-- C4 (counterexample): formatting the bitrate 1000000000 does not give
`"1Gbps"`: after two scalings the value is exactly 1000 and the guard
`Math.floor(value) > 1000` is false, so the loop stops at the `"M"`
magnitude and the result is `"1000Mbps"`. -/
theorem bitrate_gbps_counterexample :
    getIdentifierFromLevel "bitrate" (bitrateLevel 1000000000) true
      ≠ JsVal.str "1Gbps" := by decide

/-- C4 (amended): with discriminator `"bitrate"` and formatting on, the
code maps 2500000 to `"2Mbps"`, 999 to `"999bps"`, and 1000000000 to
`"1000Mbps"`. -/
theorem bitrate_format_examples :
    getIdentifierFromLevel "bitrate" (bitrateLevel 2500000) true = JsVal.str "2Mbps"
  ∧ getIdentifierFromLevel "bitrate" (bitrateLevel 999) true = JsVal.str "999bps"
  ∧ getIdentifierFromLevel "bitrate" (bitrateLevel 1000000000) true
      = JsVal.str "1000Mbps" := by decide

/-- C6: identifier derivation returns the discriminator-field value when
present and non-zero (non-falsy), otherwise the `height` field; a
discriminator value of `0` (falsy in JS) falls back to `height`; and the
unformatted `getIdentifierFromLevel` is exactly this derivation.  The
derivation is a pure function of the level and the configured field, hence
deterministic for equal inputs. -/
theorem identifier_derivation_fallback (identifyBy : String) (l : Level) :
    (∀ q : ℚ, l.fields identifyBy = some q → q ≠ 0 → rawIdentifier identifyBy l = some q)
  ∧ (l.fields identifyBy = none → rawIdentifier identifyBy l = l.fields "height")
  ∧ (l.fields identifyBy = some 0 → rawIdentifier identifyBy l = l.fields "height")
  ∧ getIdentifierFromLevel identifyBy l false = idToVal (rawIdentifier identifyBy l) := by
  refine ⟨?_, ?_, ?_, rfl⟩
  · intro q hq hq0
    simp [rawIdentifier, hq, hq0]
  · intro hq
    simp [rawIdentifier, hq]
  · intro hq
    simp [rawIdentifier, hq]

/-- C6 witness: a `bitrate` of `0` falls back to the `height` field. -/
theorem identifier_derivation_fallback_witness :
    rawIdentifier "bitrate" zeroBitrateLevel = some 720 := by
  have h := (identifier_derivation_fallback "bitrate" zeroBitrateLevel).2.2.1 (by decide)
  simpa using h

/-- C5: `setQuality identifier` enables exactly the levels whose derived
identifier strictly equals the chosen identifier, or every level when the
identifier is `"auto"`, and disables all others; for levels with heights
480/720/1080, choosing 720 gives `[false, true, false]` and choosing
`"auto"` gives `[true, true, true]`. -/
theorem setQuality_selection_semantics :
    (∀ (identifyBy : String) (levels : List Level) (identifier : JsVal) (i : ℕ),
      ((setQuality identifyBy levels identifier)[i]? = some true ↔
        ∃ q, levels[i]? = some q ∧
          (getIdentifierFromLevel identifyBy q false = identifier
            ∨ identifier = JsVal.str "auto"))
      ∧ ((setQuality identifyBy levels identifier)[i]? = some false ↔
        ∃ q, levels[i]? = some q ∧
          ¬(getIdentifierFromLevel identifyBy q false = identifier
            ∨ identifier = JsVal.str "auto")))
  ∧ setQuality "height" demoSelectionLevels (JsVal.num 720) = [false, true, false]
  ∧ setQuality "height" demoSelectionLevels (JsVal.str "auto") = [true, true, true] := by
  refine ⟨?_, by decide, by decide⟩
  intro identifyBy levels identifier i
  constructor
  · simp [setQuality, List.getElem?_map, Option.map_eq_some']
  · simp [setQuality, List.getElem?_map, Option.map_eq_some', not_or]

/-- C9: an identifier that is not `"auto"` and matches no level's derived
identifier raises no error (the embedding is a total function) and leaves
every level disabled. -/
theorem setQuality_no_match_all_disabled (identifyBy : String) (levels : List Level)
    (identifier : JsVal) (hauto : identifier ≠ JsVal.str "auto")
    (hmatch : ∀ l ∈ levels, getIdentifierFromLevel identifyBy l false ≠ identifier) :
    setQuality identifyBy levels identifier = List.replicate levels.length false := by
  rw [List.eq_replicate_iff]
  refine ⟨by simp [setQuality], ?_⟩
  intro b hb
  rcases List.mem_map.mp hb with ⟨l, hl, hval⟩
  rw [← hval]
  simp [hmatch l hl, hauto]

/-- C9 witness: identifier 999 matches none of the heights 480/720/1080;
all three levels end up disabled. -/
theorem setQuality_no_match_all_disabled_witness :
    setQuality "height" demoSelectionLevels (JsVal.num 999)
      = List.replicate demoSelectionLevels.length false :=
  setQuality_no_match_all_disabled "height" demoSelectionLevels (JsVal.num 999)
    (by decide) (by decide)

/-- C8 (counterexample): the comparator is not defensive for every
malformed descriptor.  An object lacking the `item` field makes it throw a
`TypeError` (reading `.value` of `undefined`), and when the second
argument is a non-object the comparator returns `-1`, which orders the
malformed descriptor *after* its well-shaped counterpart. -/
theorem comparator_shape_counterexample :
    levelItemComparator (SortArg.obj none)
        (SortArg.obj (some { label := JsVal.str "720p", value := JsVal.num 720,
                             selected := false }))
      = Except.error "TypeError: undefined has no property value"
  ∧ levelItemComparator
        (SortArg.obj (some { label := JsVal.str "720p", value := JsVal.num 720,
                             selected := false }))
        SortArg.nonObj
      = Except.ok (-1) :=
  ⟨rfl, rfl⟩

/-- C8 (amended): when either argument is a non-object (`typeof` is not
`'object'`), the comparator returns `-1` without throwing; only objects
missing the `item` field make it throw. -/
theorem comparator_nonobject_defensive (a b : SortArg)
    (h : a = SortArg.nonObj ∨ b = SortArg.nonObj) :
    levelItemComparator a b = Except.ok (-1) := by
  rcases h with h | h
  · subst h
    cases b with
    | obj item => cases item <;> rfl
    | nonObj => rfl
  · subst h
    cases a with
    | obj item => cases item <;> rfl
    | nonObj => rfl

/-- C8 witness: the comparator resolves a non-object second argument to
`-1` without throwing. -/
theorem comparator_nonobject_defensive_witness :
    levelItemComparator (SortArg.obj none) SortArg.nonObj = Except.ok (-1) :=
  comparator_nonobject_defensive (SortArg.obj none) SortArg.nonObj (Or.inr rfl)

/-- C10: constructing the plugin performs `Object.assign(defaults, options)`
on the module-level `defaults` object, so the options of a first
construction become the effective defaults of a second construction that
passes no options; supplying an `identifyBy` different from `"height"`
leaves the module defaults changed. -/
theorem constructor_mutates_defaults (o : PluginOptions) :
    (constructorOptions ((constructorOptions initialDefaults o).1) ⟨none, none⟩).2
      = (constructorOptions initialDefaults o).2
  ∧ (∀ s : String, o.identifyBy = some s → s ≠ "height" →
      (constructorOptions initialDefaults o).1 ≠ initialDefaults) := by
  constructor
  · simp [constructorOptions, objectAssign]
  · intro s hs hneq heq
    have : (objectAssign initialDefaults o).identifyBy = "height" := by
      rw [show objectAssign initialDefaults o = initialDefaults from heq]
      rfl
    rw [objectAssign, hs] at this
    exact hneq this

/-- C10 witness: constructing first with `{identifyBy: "bitrate"}` and then
with no options leaves `"bitrate"` as the second construction's effective
option, and the module defaults are no longer the initial ones. -/
theorem constructor_mutates_defaults_witness :
    (constructorOptions ((constructorOptions initialDefaults ⟨none, some "bitrate"⟩).1)
        ⟨none, none⟩).2
      = (constructorOptions initialDefaults ⟨none, some "bitrate"⟩).2
  ∧ (constructorOptions initialDefaults ⟨none, some "bitrate"⟩).1 ≠ initialDefaults :=
  ⟨(constructor_mutates_defaults ⟨none, some "bitrate"⟩).1,
   (constructor_mutates_defaults ⟨none, some "bitrate"⟩).2 "bitrate" rfl (by decide)⟩

/-- C1: assuming the host interface guarantee that every level's derived
identifier is numeric, the reconciled menu-item list is the real entries in
strictly ascending order of `value` followed by exactly one synthetic
`"auto"` entry, always last; for input discriminator values 1080/240/720
the ordered values are 240, 720, 1080, `"auto"`, and an empty collection
reconciles to just the `"auto"` entry. -/
theorem reconcile_sorted_auto_last :
    (∀ (identifyBy autoLabel : String) (levels : List Level),
      (∀ l ∈ levels, (rawIdentifier identifyBy l).isSome = true) →
      ((onAddQualityLevel identifyBy autoLabel levels).getLast? = some (autoItem autoLabel)
        ∧ ((onAddQualityLevel identifyBy autoLabel levels).filter
            (fun it => it.item.value == JsVal.str "auto")).length = 1
        ∧ (onAddQualityLevel identifyBy autoLabel levels).dropLast.Pairwise
            (fun x y => jsLt x.item.value y.item.value = true)))
  ∧ ((onAddQualityLevel "height" "Auto" demoSortLevels).map fun it => it.item.value)
      = [JsVal.num 240, JsVal.num 720, JsVal.num 1080, JsVal.str "auto"]
  ∧ ((onAddQualityLevel "height" "Auto" []).map fun it => it.item.value)
      = [JsVal.str "auto"] := by
  refine ⟨?_, by decide, by decide⟩
  intro identifyBy autoLabel levels hnum
  have hnumS : ∀ x ∈ jsSort (buildLevelItems identifyBy levels), numValued x := fun x hx =>
    numValued_of_mem_build identifyBy levels hnum x ((jsSort_perm _).mem_iff.mp hx)
  refine ⟨List.getLast?_concat _, ?_, ?_⟩
  · rw [show onAddQualityLevel identifyBy autoLabel levels
        = jsSort (buildLevelItems identifyBy levels) ++ [autoItem autoLabel] from rfl,
      List.filter_append]
    have h1 : (jsSort (buildLevelItems identifyBy levels)).filter
        (fun it => it.item.value == JsVal.str "auto") = [] := by
      rw [List.filter_eq_nil_iff]
      intro x hx
      rcases hnumS x hx with ⟨q, hq⟩
      simp [hq]
    rw [h1]
    rfl
  · rw [show onAddQualityLevel identifyBy autoLabel levels
        = jsSort (buildLevelItems identifyBy levels) ++ [autoItem autoLabel] from rfl,
      List.dropLast_concat]
    refine pairwise_lt_of_le_nodup _ hnumS
      (pairwise_le_jsSort _ (numValued_of_mem_build identifyBy levels hnum)) ?_
    rw [((jsSort_perm (buildLevelItems identifyBy levels)).map
        fun it => it.item.value).nodup_iff,
      buildLevelItems_values]
    exact nodup_firstOccurrences _

/-- C1 witness: the theorem applied to the 1080/240/720 collection. -/
theorem reconcile_sorted_auto_last_witness :
    (onAddQualityLevel "height" "Auto" demoSortLevels).getLast? = some (autoItem "Auto")
  ∧ ((onAddQualityLevel "height" "Auto" demoSortLevels).filter
      (fun it => it.item.value == JsVal.str "auto")).length = 1
  ∧ (onAddQualityLevel "height" "Auto" demoSortLevels).dropLast.Pairwise
      (fun x y => jsLt x.item.value y.item.value = true) :=
  reconcile_sorted_auto_last.1 "height" "Auto" demoSortLevels (by decide)

/-- C2: the real (non-auto) entries of the reconciled list carry pairwise
distinct values; the accumulated values are exactly the first occurrences
of the derived identifiers in collection order (subsequent repeats are
skipped); and input discriminator values 720/720/1080 reconcile to exactly
the two real entries 720 and 1080 in that order. -/
theorem reconcile_dedup_first_occurrence :
    (∀ (identifyBy autoLabel : String) (levels : List Level),
      ((onAddQualityLevel identifyBy autoLabel levels).dropLast.map
          fun it => it.item.value).Nodup
      ∧ (buildLevelItems identifyBy levels).map (fun it => it.item.value)
          = firstOccurrences (levels.map fun l => getIdentifierFromLevel identifyBy l false))
  ∧ ((onAddQualityLevel "height" "Auto" demoDedupLevels).dropLast.map
      fun it => it.item.value) = [JsVal.num 720, JsVal.num 1080] := by
  refine ⟨?_, by decide⟩
  intro identifyBy autoLabel levels
  constructor
  · rw [show onAddQualityLevel identifyBy autoLabel levels
        = jsSort (buildLevelItems identifyBy levels) ++ [autoItem autoLabel] from rfl,
      List.dropLast_concat,
      ((jsSort_perm (buildLevelItems identifyBy levels)).map
          fun it => it.item.value).nodup_iff,
      buildLevelItems_values]
    exact nodup_firstOccurrences _
  · exact buildLevelItems_values identifyBy levels

/-- C7: reconciliation as a state transition is idempotent (a second pass
with no collection change reproduces the same state, in particular the same
installed menu list), reads but never writes the collection and the
configuration, and is deterministic: two states agreeing on the collection
and configuration yield the same installed menu list. -/
theorem reconcile_deterministic_idempotent :
    (∀ s : PluginState, onAddStep (onAddStep s) = onAddStep s)
  ∧ (∀ s : PluginState, (onAddStep s).identifyBy = s.identifyBy
      ∧ (onAddStep s).autoLabel = s.autoLabel ∧ (onAddStep s).levels = s.levels)
  ∧ (∀ s₁ s₂ : PluginState, s₁.identifyBy = s₂.identifyBy → s₁.autoLabel = s₂.autoLabel →
      s₁.levels = s₂.levels → s₁.qualityButton.isSome → s₂.qualityButton.isSome →
      (onAddStep s₁).qualityButton = (onAddStep s₂).qualityButton) := by
  refine ⟨?_, ?_, ?_⟩
  · intro s
    cases hb : s.qualityButton with
    | none => simp [onAddStep, hb]
    | some items => simp [onAddStep, hb]
  · intro s
    cases hb : s.qualityButton with
    | none => simp [onAddStep, hb]
    | some items => simp [onAddStep, hb]
  · intro s₁ s₂ h1 h2 h3 hb1 hb2
    cases hq1 : s₁.qualityButton with
    | none => rw [hq1] at hb1; simp at hb1
    | some i1 =>
      cases hq2 : s₂.qualityButton with
      | none => rw [hq2] at hb2; simp at hb2
      | some i2 => simp [onAddStep, hq1, hq2, h1, h2, h3]

/-- C7 witness: two states sharing the collection and configuration but
holding different current button items produce the same installed list. -/
theorem reconcile_deterministic_idempotent_witness :
    (onAddStep ⟨"height", "Auto", demoSelectionLevels, some []⟩).qualityButton
      = (onAddStep ⟨"height", "Auto", demoSelectionLevels,
          some [autoItem "Auto"]⟩).qualityButton :=
  reconcile_deterministic_idempotent.2.2 _ _ rfl rfl rfl (by decide) (by decide)

end HlsQualitySelector
